import Mathlib

/-!
Shallow embedding of `src/server.js` (Bilder-Rätsel Quiz server: round and
turn state machine with hit detection and scoring) together with proofs
about it.

Modelling conventions, used throughout:
* JS objects keyed by generated string ids (`state.teams`, `state.players`,
  `round.teamCircles`, `round.teamLocked`) are association lists
  `List (String × α)` in insertion order, which is the iteration order of a
  JS object with non-index string keys; property read/write/delete are
  `alGet`/`alSet`/`alDel`.
* Pixel coordinates and point deltas are integers `ℤ`; the server does no
  arithmetic that leaves `ℤ` on integer inputs.  `Math.hypot(dx,dy) <= r`
  is decided exactly (no floating point) as `0 ≤ r ∧ dx² + dy² ≤ r²`,
  which is equivalent over the reals (proved in `isPixelHit_iff_dist_le`).
* Absent / `null` / `undefined` payload fields are `Option.none`; a JS
  `v || d` default on an integer field is `jsIntOr` (note `0` is falsy).
* `setInterval` callbacks in `admin:startRound` / `admin:newRound` close
  over a local counter `t` and over nothing else; one firing of such a
  callback is `timerFire`.  A `Tick` records the closure counter plus the
  generation number of the round the interval was created for; generation
  numbers model JS object identity of round objects and are read by no
  handler (the callback in the source checks only `state.round` and its
  `phase`, not identity).
* `a.name.localeCompare(b.name)` ordering is modelled as case-sensitive
  code-point lexicographic comparison (`lexLe`), the ordering the project
  documentation ascribes to it; `Array.prototype.sort` with a total
  comparator is modelled by insertion sort (`sortBy`).
-/

namespace BilderQuiz

/-! ### JS-semantics helpers -/

/-- Case-sensitive code-point lexicographic `≤` on character lists; model of
the total order induced by `a.localeCompare(b)` on strings. -/
def lexLe : List Char → List Char → Bool
  | [], _ => true
  | _ :: _, [] => false
  | a :: as, b :: bs => if a = b then lexLe as bs else decide (a < b)

/-- Model of `a.toLowerCase() === b.toLowerCase()` (ASCII names). -/
def jsLowerEq (a b : String) : Bool :=
  a.data.map Char.toLower == b.data.map Char.toLower

/-- Model of `parseInt(v || d, 10)` on an integer-or-missing payload field:
`none` stands for an absent / `null` / non-numeric field and the explicit
`if` mirrors that the number `0` is falsy in JS, so it also selects the
default. -/
def jsIntOr (v : Option Int) (d : Int) : Int :=
  match v with
  | none => d
  | some n => if n = 0 then d else n

/-- Model of `v || d` on a string payload field (`none` = absent or empty,
both falsy). -/
def jsStrOr (v : Option String) (d : String) : String :=
  match v with
  | none => d
  | some s => s

/-- Property read on a JS object: first binding of the key, if any. -/
def alGet {α : Type} : List (String × α) → String → Option α
  | [], _ => none
  | kv :: rest, k => if kv.1 = k then some kv.2 else alGet rest k

/-- Property write on a JS object: overwrite in place if the key exists,
append otherwise (JS preserves the position of an existing key). -/
def alSet {α : Type} (l : List (String × α)) (k : String) (v : α) :
    List (String × α) :=
  if l.any (fun kv => kv.1 = k) then
    l.map (fun kv => if kv.1 = k then (k, v) else kv)
  else l ++ [(k, v)]

/-- Property delete on a JS object. -/
def alDel {α : Type} (l : List (String × α)) (k : String) :
    List (String × α) :=
  l.filter (fun kv => ¬ kv.1 = k)

/-- Insertion step of `sortBy`. -/
def insertLe {α : Type} (le : α → α → Bool) (x : α) : List α → List α
  | [] => [x]
  | y :: ys => if le x y then x :: y :: ys else y :: insertLe le x ys

/-- Model of `Array.prototype.sort` with a total comparator: a sorted
permutation of the input (insertion sort). -/
def sortBy {α : Type} (le : α → α → Bool) : List α → List α
  | [] => []
  | x :: xs => insertLe le x (sortBy le xs)

/-- Model of `Array.prototype.indexOf`: index of the first occurrence. -/
def idxOf? : List String → String → Option Nat
  | [], _ => none
  | y :: ys, x => if y = x then some 0 else (idxOf? ys x).map (· + 1)

/-- Model of `Array.prototype.indexOf` with the JS `-1` not-found result. -/
def jsIndexOf (l : List String) (x : String) : Int :=
  match idxOf? l x with
  | some i => (i : Int)
  | none => -1

/-! ### Data model (`state` in `server.js`) -/

/-- `state.teams[id] = { id, name, points, colorIdx }`. -/
structure Team where
  id : String
  name : String
  points : Int
  colorIdx : Nat
deriving Repr, DecidableEq

/-- `state.players[socket.id] = { id, name, teamId, teamName }`. -/
structure Player where
  id : String
  name : String
  teamId : String
  teamName : String
deriving Repr, DecidableEq

/-- One team guess `{ x, y, normalized: !!normalized }`. -/
structure Circle where
  x : Int
  y : Int
  normalized : Bool
deriving Repr, DecidableEq

/-- Target object as stored in a round: the payload object itself (whose
`x`/`y` may be absent) or the default `{x:100, y:100}`. -/
structure PTarget where
  x : Option Int
  y : Option Int
  normalized : Bool
deriving Repr, DecidableEq

/-- Round phases.  The project documentation's data model names
`countdown | dark | reveal`; which of these the code actually assigns is
settled below (`c10_phase_invariant`). -/
inductive Phase where
  | countdown
  | dark
  | reveal
deriving Repr, DecidableEq

/-- `state.round`.  The `gen` field models the JS object identity of the
round object (a fresh object is created by each `admin:startRound` /
`admin:newRound`); no handler reads it. -/
structure Round where
  gen : Nat
  imageUrl : String
  duration : Int
  radius : Int
  target : PTarget
  isNormalized : Bool
  question : String
  phase : Phase
  teamCircles : List (String × Circle)
  teamLocked : List (String × Bool)
  revealClicks : Bool
deriving Repr, DecidableEq

/-- One element of `state.history` (the `ts: Date.now()` wall-clock field is
not modelled). -/
structure HistoryEntry where
  question : String
  imageUrl : String
  winners : List String
  teamCircles : List (String × Circle)
  target : PTarget
  radius : Int
deriving Repr, DecidableEq

/-- The global `state` object, plus `nextGen`, the supply of round
generation numbers (a model artefact backing `Round.gen`). -/
structure GState where
  teams : List (String × Team)
  players : List (String × Player)
  round : Option Round
  turnTeamId : Option String
  history : List HistoryEntry
  nextGen : Nat
deriving Repr, DecidableEq

/-- Initial state (`const state = { teams:{}, players:{}, round:null,
turnTeamId:null, history:[] }`). -/
def initState : GState :=
  { teams := [], players := [], round := none, turnTeamId := none,
    history := [], nextGen := 0 }

/-- Outbound events.  Only the payload parts that some claim talks about
are carried; snapshot payloads (full state, round config, history array)
are elided. -/
inductive Ev where
  | toast (msg : String)
  | statePush
  | turnUpdate (teamId : String)
  | roundConfig
  | roundTick (t : Int)
  | roundDark
  | circlePreview (x y : Int) (normalized : Bool)
  | adminTeamCircleSet (teamId : String)
  | adminTeamLocked (teamId : String)
  | adminTeamUnlocked (teamId : String)
  | autoBonus (teamId : String) (delta : Int)
  | revealTeamCircles (reveal : Bool)
  | clearTeamCircles
  | revealArea (target : PTarget) (radius : Int) (isNormalized : Bool)
  | historyPush
  | showFull
  | requestNext
  | playerAccepted
deriving Repr, DecidableEq

/-! ### Team registry and turn helpers -/

/-- `getOrCreateTeamByName(name)`.  The random id `'t'+Math.random()...` is
supplied externally as `freshId`. -/
def getOrCreateTeamByName (s : GState) (freshId : String) (name : String) :
    GState × Option Team :=
  match (s.teams.map Prod.snd).find? (fun t => jsLowerEq t.name name) with
  | some t => (s, some t)
  | none =>
    if s.teams.length ≥ 4 then (s, none)
    else
      let team : Team :=
        { id := freshId, name := name, points := 0,
          colorIdx := s.teams.length % 4 }
      let s1 := { s with teams := alSet s.teams freshId team }
      ({ s1 with
          turnTeamId :=
            match s1.turnTeamId with
            | none => some freshId
            | some t => some t },
       some team)

/-- `sortedTeamIds()`: team values sorted by `name.localeCompare`, then
mapped to ids. -/
def sortedTeamIds (s : GState) : List String :=
  (sortBy (fun a b => lexLe a.name.data b.name.data)
    (s.teams.map Prod.snd)).map Team.id

/-- `setTurn(teamId)`.  `none` is a falsy `teamId` (the generated ids are
never the empty string, so `!teamId` and `teamId == undefined` coincide in
the model). -/
def setTurn (s : GState) (teamId : Option String) : GState × List Ev :=
  match teamId with
  | none => (s, [])
  | some tid =>
    match alGet s.teams tid with
    | none => (s, [])
    | some _ =>
      ({ s with turnTeamId := some tid }, [.turnUpdate tid, .statePush])

/-- `nextTurn()`. -/
def nextTurn (s : GState) : GState × List Ev :=
  let ids := sortedTeamIds s
  if ids.isEmpty then (s, [])
  else
    match s.turnTeamId with
    | none => setTurn s ids[0]?
    | some cur =>
      let i : Int := jsIndexOf ids cur
      setTurn s ids[((i + 1).tmod ids.length).toNat]?

/-- `prevTurn()`. -/
def prevTurn (s : GState) : GState × List Ev :=
  let ids := sortedTeamIds s
  if ids.isEmpty then (s, [])
  else
    match s.turnTeamId with
    | none => setTurn s ids[0]?
    | some cur =>
      let i : Int := jsIndexOf ids cur
      setTurn s ids[((i - 1 + ids.length).tmod ids.length).toNat]?

/-! ### Hit check and winners -/

/-- `isPixelHit(clickXY, targetXY, radiusPx)`: `Math.hypot(dx,dy) <=
(radiusPx || 0)` with `null` guards.  The real-valued comparison
`hypot(dx,dy) ≤ r` is decided exactly as `0 ≤ r ∧ dx² + dy² ≤ r²` (see
`isPixelHit_iff_dist_le`); a missing target coordinate (JS `undefined`,
propagating `NaN` through the subtraction) makes the comparison false, as
does a missing object.  For an integer `radiusPx` the JS `|| 0` default
changes nothing (`0 || 0` is `0`). -/
def isPixelHit (click : Option Circle) (target : Option PTarget)
    (radiusPx : Int) : Bool :=
  match click, target with
  | some c, some t =>
    match t.x, t.y with
    | some tx, some ty =>
      decide (0 ≤ radiusPx ∧ (c.x - tx)^2 + (c.y - ty)^2 ≤ radiusPx^2)
    | _, _ => false
  | _, _ => false

/-- `computeWinnersFromTeamCircles()`. -/
def computeWinnersFromTeamCircles (s : GState) : List String :=
  match s.round with
  | none => []
  | some R =>
    if R.isNormalized then []
    else
      (R.teamCircles.filter
        (fun tc => !tc.2.normalized &&
          isPixelHit (some tc.2) (some R.target) R.radius)).map Prod.fst

/-! ### Player handlers -/

/-- `player:join` handler.  `name`/`teamName` are `none` when absent or
empty (falsy); the fresh random team id is supplied as `freshId`. -/
def playerJoin (s : GState) (sid freshId : String)
    (name teamName : Option String) : GState × List Ev :=
  match name, teamName with
  | some nm, some tn =>
    match getOrCreateTeamByName s freshId tn.trim with
    | (s1, none) =>
      (s1, [.toast "Es sind bereits 4 Teams aktiv – wähle ein bestehendes Team."])
    | (s1, some team) =>
      let currentPlayers :=
        (s1.players.filter (fun pp => pp.2.teamId = team.id)).length
      if currentPlayers ≥ 2 then
        (s1, [.toast ("Team \"" ++ team.name ++
          "\" ist voll (max. 2 Spieler). Bitte anderes Team wählen oder neues Team anlegen.")])
      else
        ({ s1 with
            players := alSet s1.players sid
              { id := sid, name := nm.trim, teamId := team.id,
                teamName := team.name } },
         [.playerAccepted, .statePush])
  | _, _ => (s, [])

/-- Guard `state.turnTeamId && p.teamId !== state.turnTeamId` shared by
`team:setCircle`, `team:confirm` and `team:unconfirm`. -/
def notYourTurn (s : GState) (p : Player) : Bool :=
  match s.turnTeamId with
  | some t => p.teamId != t
  | none => false

/-- `team:setCircle` handler.  The defensive `R.teamCircles = R.teamCircles
|| {}` re-initialisations in the source are identities here (the maps are
created with the round). -/
def teamSetCircle (s : GState) (sid : String) (x y : Int)
    (normalized : Bool) : GState × List Ev :=
  match alGet s.players sid, s.round with
  | some p, some R =>
    if notYourTurn s p then
      (s, [.toast "Euer Team ist nicht dran."])
    else if (alGet R.teamLocked p.teamId).getD false then
      (s, [.toast "Euer Team ist bereits eingeloggt."])
    else
      ({ s with
          round := some { R with
            teamCircles := alSet R.teamCircles p.teamId
              { x := x, y := y, normalized := normalized } } },
       [.circlePreview x y normalized, .adminTeamCircleSet p.teamId])
  | _, _ => (s, [])

/-- `team:confirm` handler. -/
def teamConfirm (s : GState) (sid : String) : GState × List Ev :=
  match alGet s.players sid, s.round with
  | some p, some R =>
    if notYourTurn s p then
      (s, [.toast "Euer Team ist nicht dran."])
    else
      match alGet R.teamCircles p.teamId with
      | none => (s, [.toast "Bitte zuerst eure Position setzen."])
      | some circ =>
        if (alGet R.teamLocked p.teamId).getD false then (s, [])
        else
          let s1 := { s with
            round := some { R with
              teamLocked := alSet R.teamLocked p.teamId true } }
          if !R.isNormalized then
            if isPixelHit (some circ) (some R.target) R.radius then
              match alGet s1.teams p.teamId with
              | some t =>
                ({ s1 with
                    teams := alSet s1.teams p.teamId
                      { t with points := t.points + 5 } },
                 [.adminTeamLocked p.teamId, .statePush,
                  .autoBonus p.teamId 5])
              | none => (s1, [.adminTeamLocked p.teamId])
            else (s1, [.adminTeamLocked p.teamId])
          else (s1, [.adminTeamLocked p.teamId])
  | _, _ => (s, [])

/-- `team:unconfirm` handler. -/
def teamUnconfirm (s : GState) (sid : String) : GState × List Ev :=
  match alGet s.players sid, s.round with
  | some p, some R =>
    if notYourTurn s p then (s, [])
    else if (alGet R.teamLocked p.teamId).getD false then
      ({ s with
          round := some { R with
            teamLocked := alSet R.teamLocked p.teamId false } },
       [.adminTeamUnlocked p.teamId])
    else (s, [])
  | _, _ => (s, [])

/-- `disconnect` handler. -/
def disconnectPlayer (s : GState) (sid : String) : GState × List Ev :=
  match alGet s.players sid with
  | some _ => ({ s with players := alDel s.players sid }, [.statePush])
  | none => (s, [])

/-! ### Round creation and the countdown timer -/

/-- Payload of `admin:startRound` / `admin:newRound`. -/
structure RoundPayload where
  imageUrl : Option String
  duration : Option Int
  radius : Option Int
  target : Option PTarget
  question : Option String
deriving Repr, DecidableEq

/-- Construction of the fresh round object, identical (line for line) in
`admin:startRound` and `admin:newRound`:
`duration: Math.max(3, parseInt(duration||15,10))`,
`radius: Math.max(5, Math.min(200, parseInt(radius||45,10)))`,
`target: (target && target.x!=null) ? target : {x:100,y:100}`,
`isNormalized: !!(target && target.normalized)`, `phase: 'countdown'`,
empty `teamCircles`/`teamLocked`, `revealClicks: false`. -/
def mkRound (gen : Nat) (p : RoundPayload) : Round :=
  { gen := gen
    imageUrl := jsStrOr p.imageUrl "/images/sample.jpg"
    duration := max 3 (jsIntOr p.duration 15)
    radius := max 5 (min 200 (jsIntOr p.radius 45))
    target :=
      match p.target with
      | some t =>
        if t.x.isSome then t
        else { x := some 100, y := some 100, normalized := false }
      | none => { x := some 100, y := some 100, normalized := false }
    isNormalized :=
      match p.target with
      | some t => t.normalized
      | none => false
    question := jsStrOr p.question ""
    phase := .countdown
    teamCircles := []
    teamLocked := []
    revealClicks := false }

/-- State of one live `setInterval` countdown callback: the closure-local
counter `t` plus the generation of the round the interval was created for.
`forGen` models closure provenance only; `timerFire` does not read it,
exactly as the callback in the source reads only the global
`state.round`. -/
structure Tick where
  forGen : Nat
  t : Int
deriving Repr, DecidableEq

/-- One firing of the countdown callback:
`t -= 1; if(!state.round || state.round.phase!=='countdown'){ clear;
return; } emit('round:tick', t); if(t<=0){ clear; state.round.phase='dark';
emit('round:dark'); }`.  The third component is the surviving timer
(`none` after `clearInterval`). -/
def timerFire (s : GState) (tk : Tick) : GState × List Ev × Option Tick :=
  let t := tk.t - 1
  match s.round with
  | none => (s, [], none)
  | some R =>
    if R.phase ≠ Phase.countdown then (s, [], none)
    else if t ≤ 0 then
      ({ s with round := some { R with phase := .dark } },
       [.roundTick t, .roundDark], none)
    else (s, [.roundTick t], some { tk with t := t })

/-- `admin:startRound` handler.  Returns the new state, the immediately
emitted events (`round:config` and the immediate `round:tick` of the full
duration), and the created interval. -/
def adminStartRound (s : GState) (p : RoundPayload) :
    GState × List Ev × Tick :=
  let R := mkRound s.nextGen p
  ({ s with round := some R, nextGen := s.nextGen + 1 },
   [.roundConfig, .roundTick R.duration],
   { forGen := R.gen, t := R.duration })

/-- History entry pushed by `admin:newRound` for a superseded round:
`winners: []`, no hit evaluation. -/
def closeEntry (R : Round) : HistoryEntry :=
  { question := R.question, imageUrl := R.imageUrl, winners := [],
    teamCircles := R.teamCircles, target := R.target, radius := R.radius }

/-- `admin:newRound` handler: force-close the active round into history
(winners empty), then create a fresh round exactly as `admin:startRound`
does. -/
def adminNewRound (s : GState) (p : RoundPayload) :
    GState × List Ev × Tick :=
  let (s1, e1) :=
    match s.round with
    | some R =>
      ({ s with history := s.history ++ [closeEntry R] }, [Ev.historyPush])
    | none => (s, [])
  let R := mkRound s1.nextGen p
  ({ s1 with round := some R, nextGen := s1.nextGen + 1 },
   e1 ++ [.roundConfig, .roundTick R.duration],
   { forGen := R.gen, t := R.duration })

/-! ### Remaining admin handlers -/

/-- `admin:revealTeamCircles` handler. -/
def adminRevealTeamCircles (s : GState) : GState × List Ev :=
  match s.round with
  | none => (s, [])
  | some R =>
    ({ s with round := some { R with revealClicks := true } },
     [.revealTeamCircles true])

/-- `admin:hideTeamCircles` handler. -/
def adminHideTeamCircles (s : GState) : GState × List Ev :=
  match s.round with
  | none => (s, [])
  | some R =>
    ({ s with round := some { R with revealClicks := false } },
     [.revealTeamCircles false])

/-- `admin:clearTeamCircles` handler. -/
def adminClearTeamCircles (s : GState) : GState × List Ev :=
  match s.round with
  | none => (s, [])
  | some R =>
    ({ s with round := some { R with teamCircles := [], teamLocked := [] } },
     [.clearTeamCircles])

/-- History entry pushed by `admin:revealArea` for the revealed round. -/
def revealEntry (R : Round) (winners : List String) : HistoryEntry :=
  { question := R.question, imageUrl := R.imageUrl, winners := winners,
    teamCircles := R.teamCircles, target := R.target, radius := R.radius }

/-- `admin:revealArea` handler.  The two `setTimeout` fire-and-forget
broadcasts (`round:showFull` after `min(ms,5000)`, `admin:requestNext`
after `max(ms,1500)+2000`) mutate no state; they are represented by their
eventual events at the tail of the event list. -/
def adminRevealArea (s : GState) (autoNext : Bool) (_delayMs : Option Int) :
    GState × List Ev :=
  match s.round with
  | none => (s, [])
  | some R =>
    let winners := computeWinnersFromTeamCircles s
    ({ s with history := s.history ++ [revealEntry R winners] },
     [.revealArea R.target R.radius R.isNormalized, .historyPush] ++
       (if autoNext then [.showFull, .requestNext] else []))

/-- `admin:showFull` handler. -/
def adminShowFull (s : GState) : GState × List Ev :=
  match s.round with
  | none => (s, [])
  | some _ => (s, [.showFull])

/-- `admin:adjustPoints` handler. -/
def adminAdjustPoints (s : GState) (teamId : Option String)
    (delta : Option Int) : GState × List Ev :=
  match teamId with
  | none => (s, [])
  | some tid =>
    match alGet s.teams tid with
    | none => (s, [])
    | some t =>
      ({ s with
          teams := alSet s.teams tid
            { t with points := t.points + jsIntOr delta 0 } },
       [.statePush])

/-! ### Command dispatch (for reachability) -/

/-- Inbound events of the server, plus `timer tk`: the firing of a live
countdown interval.  Quantifying `timer` over every `Tick` value
over-approximates the real timer interleavings, which is sound for the
safety invariant proved below. -/
inductive Cmd where
  | playerHello
  | adminHello
  | playerJoin (sid freshId : String) (name teamName : Option String)
  | teamSetCircle (sid : String) (x y : Int) (normalized : Bool)
  | teamConfirm (sid : String)
  | teamUnconfirm (sid : String)
  | adminSetTurn (teamId : Option String)
  | adminNextTurn
  | adminPrevTurn
  | adminStartRound (p : RoundPayload)
  | adminRevealTeamCircles
  | adminHideTeamCircles
  | adminClearTeamCircles
  | adminRevealArea (autoNext : Bool) (delayMs : Option Int)
  | adminShowFull
  | adminAdjustPoints (teamId : Option String) (delta : Option Int)
  | adminNewRound (p : RoundPayload)
  | disconnect (sid : String)
  | timer (tk : Tick)

/-- Dispatch of one inbound event.  `player:hello` / `admin:hello` only
re-emit snapshots and never mutate state; their events are elided. -/
def step (s : GState) (c : Cmd) : GState × List Ev :=
  match c with
  | .playerHello => (s, [])
  | .adminHello => (s, [])
  | .playerJoin sid freshId name teamName => playerJoin s sid freshId name teamName
  | .teamSetCircle sid x y n => teamSetCircle s sid x y n
  | .teamConfirm sid => teamConfirm s sid
  | .teamUnconfirm sid => teamUnconfirm s sid
  | .adminSetTurn teamId => setTurn s teamId
  | .adminNextTurn => nextTurn s
  | .adminPrevTurn => prevTurn s
  | .adminStartRound p => ((adminStartRound s p).1, (adminStartRound s p).2.1)
  | .adminRevealTeamCircles => adminRevealTeamCircles s
  | .adminHideTeamCircles => adminHideTeamCircles s
  | .adminClearTeamCircles => adminClearTeamCircles s
  | .adminRevealArea a d => adminRevealArea s a d
  | .adminShowFull => adminShowFull s
  | .adminAdjustPoints tid d => adminAdjustPoints s tid d
  | .adminNewRound p => ((adminNewRound s p).1, (adminNewRound s p).2.1)
  | .disconnect sid => disconnectPlayer s sid
  | .timer tk => ((timerFire s tk).1, (timerFire s tk).2.1)

/-- Run of the server from a state through a list of inbound events. -/
def runCmds (s : GState) : List Cmd → GState
  | [] => s
  | c :: cs => runCmds (step s c).1 cs

/-! ### Concrete fixtures shared by the witness theorems -/

/-- Fixture team `Alpha`. -/
def exTeamA : Team := { id := "tA", name := "Alpha", points := 0, colorIdx := 0 }

/-- Fixture team `Beta`. -/
def exTeamB : Team := { id := "tB", name := "Beta", points := 0, colorIdx := 1 }

/-- Fixture player on team `tA`, connected as socket `s1`. -/
def exPlayerA : Player :=
  { id := "s1", name := "P1", teamId := "tA", teamName := "Alpha" }

/-- Fixture pixel-mode round (target `{x:100,y:100}`, radius 45). -/
def exRound : Round :=
  { gen := 0, imageUrl := "/images/sample.jpg", duration := 15, radius := 45,
    target := { x := some 100, y := some 100, normalized := false },
    isNormalized := false, question := "", phase := Phase.countdown,
    teamCircles := [], teamLocked := [], revealClicks := false }

/-- Fixture state where team `tB` has the turn. -/
def exGate : GState :=
  { teams := [("tA", exTeamA), ("tB", exTeamB)],
    players := [("s1", exPlayerA)], round := some exRound,
    turnTeamId := some "tB", history := [], nextGen := 1 }

/-- Fixture state with no current turn team. -/
def exNoTurn : GState := { exGate with turnTeamId := none }

/-- Fixture state where `tA` has the turn but no circle is recorded. -/
def exGateTurnA : GState := { exGate with turnTeamId := some "tA" }

/-- Fixture state where `tA` has the turn, has placed the circle
`{x:120,y:110}` (a hit at distance √500 ≤ 45) and is not locked. -/
def exReadyHit : GState :=
  { exGate with
    turnTeamId := some "tA"
    round := some { exRound with
      teamCircles := [("tA", { x := 120, y := 110, normalized := false })] } }

/-- Fixture state like `exReadyHit` but with the missing circle
`{x:300,y:300}` (distance √80000 > 45). -/
def exReadyMiss : GState :=
  { exGate with
    turnTeamId := some "tA"
    round := some { exRound with
      teamCircles := [("tA", { x := 300, y := 300, normalized := false })] } }

/-- Fixture state where `tA` has the turn and is already locked. -/
def exLocked : GState :=
  { exGate with
    turnTeamId := some "tA"
    round := some { exRound with
      teamCircles := [("tA", { x := 120, y := 110, normalized := false })]
      teamLocked := [("tA", true)] } }

/-- Fixture normalized-mode round with a circle that would be a hit in
pixel mode. -/
def exNormRound : Round :=
  { exRound with
    isNormalized := true
    teamCircles := [("tA", { x := 100, y := 100, normalized := false })] }

/-- Fixture state holding `exNormRound`, `tA` to act. -/
def exNormState : GState :=
  { exGate with
    turnTeamId := some "tA"
    round := some exNormRound }

/-! ### Association-list lemmas -/

theorem alGet_map_set {α : Type} (l : List (String × α)) (k : String)
    (v : α) :
    alGet (l.map (fun kv => if kv.1 = k then (k, v) else kv)) k =
      if l.any (fun kv => kv.1 = k) then some v else none := by
  induction l with
  | nil => simp [alGet]
  | cons kv rest ih =>
    rw [List.map_cons, List.any_cons]
    by_cases h : kv.1 = k
    · simp [alGet, h]
    · have hd : (decide (kv.1 = k)) = false := by simp [h]
      rw [hd, Bool.false_or]
      simpa [alGet, h] using ih

theorem alGet_append_single {α : Type} (l : List (String × α)) (k : String)
    (v : α) (h : l.any (fun kv => kv.1 = k) = false) :
    alGet (l ++ [(k, v)]) k = some v := by
  induction l with
  | nil => simp [alGet]
  | cons kv rest ih =>
    rw [List.any_cons, Bool.or_eq_false_iff] at h
    have h1 : ¬ kv.1 = k := by
      intro hh
      simp [hh] at h
    simpa [alGet, h1] using ih h.2

theorem alGet_append_single_ne {α : Type} (l : List (String × α))
    (k k' : String) (v : α) (hne : k' ≠ k) :
    alGet (l ++ [(k, v)]) k' = alGet l k' := by
  induction l with
  | nil => simp [alGet, Ne.symm hne]
  | cons kv rest ih =>
    by_cases h' : kv.1 = k'
    · simp [alGet, h']
    · simp [alGet, h', ih]

theorem alGet_map_set_ne {α : Type} (l : List (String × α)) (k k' : String)
    (v : α) (hne : k' ≠ k) :
    alGet (l.map (fun kv => if kv.1 = k then (k, v) else kv)) k' =
      alGet l k' := by
  induction l with
  | nil => simp [alGet]
  | cons kv rest ih =>
    by_cases h : kv.1 = k
    · have hk : ¬ kv.1 = k' := by
        rw [h]; exact fun hh => hne hh.symm
      simp [alGet, h, Ne.symm hne, hk, ih]
    · by_cases h' : kv.1 = k'
      · simp [alGet, h, h', hne]
      · simp [alGet, h, h', ih]

theorem alGet_alSet_self {α : Type} (l : List (String × α)) (k : String)
    (v : α) : alGet (alSet l k v) k = some v := by
  unfold alSet
  by_cases h : l.any (fun kv => kv.1 = k) = true
  · simp [h, alGet_map_set]
  · have hf : l.any (fun kv => kv.1 = k) = false := by
      cases hA : l.any (fun kv => kv.1 = k)
      · rfl
      · exact absurd hA h
    rw [if_neg (by simp [hf])]
    exact alGet_append_single l k v hf

theorem alGet_alSet_ne {α : Type} (l : List (String × α)) (k k' : String)
    (v : α) (hne : k' ≠ k) : alGet (alSet l k v) k' = alGet l k' := by
  unfold alSet
  split
  · exact alGet_map_set_ne l k k' v hne
  · exact alGet_append_single_ne l k k' v hne

/-! ### C7: the hit predicate is exactly "Euclidean distance ≤ radius" -/

/-- C7.  For every circle, every target with both coordinates present and
every radius, `isPixelHit` returns `true` exactly when the Euclidean
distance between the circle and the target is at most the radius; the
boundary case (distance equal to the radius) is a hit, and any strictly
greater distance is not. -/
theorem c7_isPixelHit_iff_dist_le (c : Circle) (tx ty r : Int)
    (nb : Bool) :
    isPixelHit (some c) (some { x := some tx, y := some ty, normalized := nb }) r
        = true ↔
      Real.sqrt (((c.x - tx : Int) : ℝ)^2 + ((c.y - ty : Int) : ℝ)^2) ≤
        (r : ℝ) := by
  show decide (0 ≤ r ∧ (c.x - tx)^2 + (c.y - ty)^2 ≤ r^2) = true ↔ _
  rw [Real.sqrt_le_iff, decide_eq_true_eq]
  constructor
  · rintro ⟨h0, h2⟩
    exact ⟨by exact_mod_cast h0, by exact_mod_cast h2⟩
  · rintro ⟨h0, h2⟩
    exact ⟨by exact_mod_cast h0, by exact_mod_cast h2⟩

/-! ### C2: shape of the round created by `admin:startRound` -/

/-- C2.  Every round created by `admin:startRound` has duration at least 3
seconds, radius in `[5, 200]`, target `{x:100, y:100}` whenever the payload
carries no target `x`, `isNormalized` equal to the truthiness of the
payload target's `normalized` flag, phase `countdown`, and empty
`teamCircles` / `teamLocked` maps. -/
theorem c2_startRound_round_shape (s : GState) (p : RoundPayload) :
    ∃ r : Round, ((adminStartRound s p).1).round = some r ∧
      3 ≤ r.duration ∧
      5 ≤ r.radius ∧ r.radius ≤ 200 ∧
      ((∀ t, p.target = some t → t.x = none) →
        r.target = { x := some 100, y := some 100, normalized := false }) ∧
      r.isNormalized = (match p.target with
        | some t => t.normalized
        | none => false) ∧
      r.phase = Phase.countdown ∧
      r.teamCircles = [] ∧ r.teamLocked = [] := by
  refine ⟨mkRound s.nextGen p, rfl, ?_, ?_, ?_, ?_, rfl, rfl, rfl, rfl⟩
  · exact le_max_left _ _
  · exact le_max_left _ _
  · exact max_le (by norm_num) (min_le_left _ _)
  · intro h
    unfold mkRound
    dsimp only
    match hp : p.target with
    | none => rfl
    | some t =>
      have hx : t.x = none := h t hp
      simp [hx]

/-- Witness for C2 at a concrete payload (absent target, duration 0 —
falsy, so defaulted to 15 — and an out-of-range radius 1000). -/
theorem c2_startRound_round_shape_witness :
    ∃ r : Round, ((adminStartRound initState
        { imageUrl := none, duration := some 0, radius := some 1000,
          target := none, question := none }).1).round = some r ∧
      3 ≤ r.duration ∧
      5 ≤ r.radius ∧ r.radius ≤ 200 ∧
      ((∀ t, (none : Option PTarget) = some t → t.x = none) →
        r.target = { x := some 100, y := some 100, normalized := false }) ∧
      r.isNormalized = false ∧
      r.phase = Phase.countdown ∧
      r.teamCircles = [] ∧ r.teamLocked = [] :=
  c2_startRound_round_shape initState
    { imageUrl := none, duration := some 0, radius := some 1000,
      target := none, question := none }

/-! ### Turn-gate helper lemmas -/

theorem notYourTurn_of_ne {s : GState} {p : Player} {tt : String}
    (htt : s.turnTeamId = some tt) (hne : p.teamId ≠ tt) :
    notYourTurn s p = true := by
  simp [notYourTurn, htt, hne]

theorem notYourTurn_of_none {s : GState} {p : Player}
    (h : s.turnTeamId = none) : notYourTurn s p = false := by
  simp [notYourTurn, h]

/-! ### C3: turn gating on guess-mutating actions -/

/-- C3.  With a current turn team set, `team:setCircle` and `team:confirm`
from a player of another team are rejected with the "not your turn" toast
and change nothing at all (in particular `teamCircles`, `teamLocked` and
every team's points are unchanged); with no current turn team set, the
gate does not apply: `setCircle` records the circle and an unlocked team
with a circle gets locked by `confirm`. -/
theorem c3_turn_gating (s : GState) (sid : String) (p : Player) (R : Round)
    (x y : Int) (nb : Bool)
    (hp : alGet s.players sid = some p) (hR : s.round = some R) :
    (∀ tt, s.turnTeamId = some tt → p.teamId ≠ tt →
      teamSetCircle s sid x y nb =
        (s, [Ev.toast "Euer Team ist nicht dran."]) ∧
      teamConfirm s sid = (s, [Ev.toast "Euer Team ist nicht dran."])) ∧
    (s.turnTeamId = none →
      ((alGet R.teamLocked p.teamId).getD false = false →
        (teamSetCircle s sid x y nb).1.round = some { R with
          teamCircles := alSet R.teamCircles p.teamId
            { x := x, y := y, normalized := nb } }) ∧
      ((alGet R.teamLocked p.teamId).getD false = false →
        ∀ c, alGet R.teamCircles p.teamId = some c →
          (teamConfirm s sid).1.round.map Round.teamLocked =
            some (alSet R.teamLocked p.teamId true))) := by
  constructor
  · intro tt htt hne
    have hg := notYourTurn_of_ne htt hne
    constructor
    · unfold teamSetCircle
      rw [hp, hR]
      simp [hg]
    · unfold teamConfirm
      rw [hp, hR]
      simp [hg]
  · intro hnone
    have hg := notYourTurn_of_none (p := p) hnone
    constructor
    · intro hlock
      unfold teamSetCircle
      rw [hp, hR]
      simp [hg, hlock]
    · intro hlock c hc
      unfold teamConfirm
      rw [hp, hR]
      simp only [hg, Bool.false_eq_true, if_false, hc, hlock]
      cases hn : R.isNormalized with
      | true => simp
      | false =>
        cases hhit : isPixelHit (some c) (some R.target) R.radius with
        | false => simp
        | true =>
          cases ht : alGet s.teams p.teamId with
          | none => simp [ht]
          | some tm => simp [ht]

/-- Witness for C3: in `exGate` team `tB` has the turn and the acting
player is in team `tA`, so `setCircle` is rejected with the toast; in
`exNoTurn` no turn team is set and the same `setCircle` records the
circle. -/
theorem c3_turn_gating_witness :
    teamSetCircle exGate "s1" 10 20 false =
      (exGate, [Ev.toast "Euer Team ist nicht dran."]) ∧
    (teamSetCircle exNoTurn "s1" 10 20 false).1.round =
      some { exRound with
        teamCircles := alSet exRound.teamCircles "tA"
          { x := 10, y := 20, normalized := false } } :=
  ⟨((c3_turn_gating exGate "s1" exPlayerA exRound 10 20 false rfl
      rfl).1 "tB" rfl (by decide)).1,
   ((c3_turn_gating exNoTurn "s1" exPlayerA exRound 10 20 false rfl
      rfl).2 rfl).1 rfl⟩

/-! ### C4: locking is monotonic until `team:unconfirm` -/

/-- C4.  Once a team is locked, `team:setCircle` from that team is a no-op
that leaves the whole state (in particular the team's circle) unchanged,
and `team:confirm` is a silent no-op (no state change, no events, hence no
additional points); `team:unconfirm` clears the lock, after which
`setCircle` records a circle again. -/
theorem c4_lock_monotonic (s : GState) (sid : String) (p : Player)
    (R : Round) (x y : Int) (nb : Bool)
    (hp : alGet s.players sid = some p) (hR : s.round = some R)
    (hlock : (alGet R.teamLocked p.teamId).getD false = true) :
    (teamSetCircle s sid x y nb).1 = s ∧
    (notYourTurn s p = false →
      ∀ c, alGet R.teamCircles p.teamId = some c →
        teamConfirm s sid = (s, [])) ∧
    (notYourTurn s p = false →
      teamUnconfirm s sid = ({ s with round := some { R with
          teamLocked := alSet R.teamLocked p.teamId false } },
        [Ev.adminTeamUnlocked p.teamId]) ∧
      (teamSetCircle (teamUnconfirm s sid).1 sid x y nb).1.round =
        some { R with
          teamLocked := alSet R.teamLocked p.teamId false
          teamCircles := alSet R.teamCircles p.teamId
            { x := x, y := y, normalized := nb } }) := by
  refine ⟨?_, ?_, ?_⟩
  · unfold teamSetCircle
    rw [hp, hR]
    cases hg : notYourTurn s p with
    | true => simp [hg]
    | false => simp [hg, hlock]
  · intro hg c hc
    unfold teamConfirm
    rw [hp, hR]
    simp [hg, hc, hlock]
  · intro hg
    have hun : teamUnconfirm s sid = ({ s with round := some { R with
        teamLocked := alSet R.teamLocked p.teamId false } },
        [Ev.adminTeamUnlocked p.teamId]) := by
      unfold teamUnconfirm
      rw [hp, hR]
      simp [hg, hlock]
    refine ⟨hun, ?_⟩
    rw [hun]
    unfold teamSetCircle
    have hg' : notYourTurn { s with round := some { R with
        teamLocked := alSet R.teamLocked p.teamId false } } p = false := hg
    dsimp only
    rw [hp]
    simp [hg', alGet_alSet_self]

/-- Witness for C4 at `exLocked` (`tA` locked with a recorded circle). -/
theorem c4_lock_monotonic_witness :
    (teamSetCircle exLocked "s1" 7 8 false).1 = exLocked ∧
    teamConfirm exLocked "s1" = (exLocked, []) :=
  ⟨(c4_lock_monotonic exLocked "s1" exPlayerA
      { exRound with
        teamCircles := [("tA", { x := 120, y := 110, normalized := false })]
        teamLocked := [("tA", true)] }
      7 8 false rfl rfl rfl).1,
   (c4_lock_monotonic exLocked "s1" exPlayerA
      { exRound with
        teamCircles := [("tA", { x := 120, y := 110, normalized := false })]
        teamLocked := [("tA", true)] }
      7 8 false rfl rfl rfl).2.1 rfl
     { x := 120, y := 110, normalized := false } rfl⟩

/-! ### C5: confirm in pixel mode locks and auto-scores -/

/-- C5.  In a pixel-mode round, a confirm by the current-turn team with a
recorded circle and no lock locks the team; if the circle is a hit the
team's points grow by exactly 5 and the bonus notification is broadcast;
if it is a miss no team's points change; a confirm without a recorded
circle produces a toast and changes no state. -/
theorem c5_confirm_pixel_scoring (s : GState) (sid : String) (p : Player)
    (R : Round) (c : Circle) (tm : Team)
    (hp : alGet s.players sid = some p) (hR : s.round = some R)
    (hg : notYourTurn s p = false) (hnorm : R.isNormalized = false)
    (hlock : (alGet R.teamLocked p.teamId).getD false = false) :
    (alGet R.teamCircles p.teamId = some c →
      (teamConfirm s sid).1.round.map Round.teamLocked =
        some (alSet R.teamLocked p.teamId true) ∧
      (isPixelHit (some c) (some R.target) R.radius = true →
        alGet s.teams p.teamId = some tm →
        alGet (teamConfirm s sid).1.teams p.teamId =
          some { tm with points := tm.points + 5 } ∧
        (teamConfirm s sid).2 =
          [Ev.adminTeamLocked p.teamId, Ev.statePush,
           Ev.autoBonus p.teamId 5]) ∧
      (isPixelHit (some c) (some R.target) R.radius = false →
        (teamConfirm s sid).1.teams = s.teams ∧
        (teamConfirm s sid).2 = [Ev.adminTeamLocked p.teamId])) ∧
    (alGet R.teamCircles p.teamId = none →
      teamConfirm s sid =
        (s, [Ev.toast "Bitte zuerst eure Position setzen."])) := by
  constructor
  · intro hc
    unfold teamConfirm
    rw [hp, hR]
    simp only [hg, Bool.false_eq_true, if_false, hc, hlock]
    refine ⟨?_, ?_, ?_⟩
    · cases hhit : isPixelHit (some c) (some R.target) R.radius with
      | false => simp [hnorm, hhit]
      | true =>
        cases ht : alGet s.teams p.teamId with
        | none => simp [hnorm, hhit, ht]
        | some tm' => simp [hnorm, hhit, ht]
    · intro hhit ht
      simp [hnorm, hhit, ht, alGet_alSet_self]
    · intro hhit
      simp [hnorm, hhit]
  · intro hc
    unfold teamConfirm
    rw [hp, hR]
    simp [hg, hc]

/-- Witness for C5: the hit scenario `target={x:100,y:100}`, `radius=45`,
circle `{x:120,y:110}` (distance √500 ≤ 45) at `exReadyHit`; the miss
scenario circle `{x:300,y:300}` at `exReadyMiss`; and the missing-circle
toast at `exGateTurnA`. -/
theorem c5_confirm_pixel_scoring_witness :
    alGet (teamConfirm exReadyHit "s1").1.teams "tA" =
      some { exTeamA with points := 5 } ∧
    (teamConfirm exReadyHit "s1").2 =
      [Ev.adminTeamLocked "tA", Ev.statePush, Ev.autoBonus "tA" 5] ∧
    (teamConfirm exReadyMiss "s1").1.teams = exReadyMiss.teams ∧
    teamConfirm exGateTurnA "s1" =
      (exGateTurnA, [Ev.toast "Bitte zuerst eure Position setzen."]) := by
  have h1 := (c5_confirm_pixel_scoring exReadyHit "s1" exPlayerA
    { exRound with
      teamCircles := [("tA", { x := 120, y := 110, normalized := false })] }
    { x := 120, y := 110, normalized := false } exTeamA
    rfl rfl rfl rfl rfl).1 rfl
  have hm := (c5_confirm_pixel_scoring exReadyMiss "s1" exPlayerA
    { exRound with
      teamCircles := [("tA", { x := 300, y := 300, normalized := false })] }
    { x := 300, y := 300, normalized := false } exTeamA
    rfl rfl rfl rfl rfl).1 rfl
  have h2 := (c5_confirm_pixel_scoring exGateTurnA "s1" exPlayerA exRound
    { x := 120, y := 110, normalized := false } exTeamA
    rfl rfl rfl rfl rfl).2 rfl
  have hhit : isPixelHit
      (some { x := 120, y := 110, normalized := false })
      (some exRound.target) exRound.radius = true := by decide
  have hmiss : isPixelHit
      (some { x := 300, y := 300, normalized := false })
      (some exRound.target) exRound.radius = false := by decide
  have h15 := h1.2.1 hhit rfl
  exact ⟨h15.1, h15.2, (hm.2.2 hmiss).1, h2⟩

/-! ### C6: normalized rounds never auto-score -/

/-- C6.  For a normalized-mode round, `computeWinnersFromTeamCircles`
returns the empty list whatever circles are recorded, and `team:confirm`
never changes any team's points (the whole `teams` table is unchanged):
automatic scoring exists only in pixel mode. -/
theorem c6_normalized_no_auto_scoring (s : GState) (R : Round)
    (hR : s.round = some R) (hnorm : R.isNormalized = true) :
    computeWinnersFromTeamCircles s = [] ∧
    ∀ sid, (teamConfirm s sid).1.teams = s.teams := by
  constructor
  · unfold computeWinnersFromTeamCircles
    rw [hR]
    simp [hnorm]
  · intro sid
    unfold teamConfirm
    cases hp : alGet s.players sid with
    | none => rfl
    | some p =>
      rw [hR]
      cases hg : notYourTurn s p with
      | true => simp [hg]
      | false =>
        cases hc : alGet R.teamCircles p.teamId with
        | none => simp [hg, hc]
        | some c =>
          cases hl : (alGet R.teamLocked p.teamId).getD false with
          | true => simp [hg, hc, hl]
          | false => simp [hg, hc, hl, hnorm]

/-- Witness for C6 at `exNormState` (normalized round with a circle that
would be a pixel hit). -/
theorem c6_normalized_no_auto_scoring_witness :
    computeWinnersFromTeamCircles exNormState = [] ∧
    ∀ sid, (teamConfirm exNormState sid).1.teams = exNormState.teams :=
  c6_normalized_no_auto_scoring exNormState exNormRound rfl rfl

/-! ### C8: `admin:newRound` closes the old round into history -/

/-- C8.  If a round is active when `admin:newRound` arrives, exactly one
history entry is appended for it, with an empty winners list (no hit
evaluation), and a fresh round is created with phase `countdown` and empty
guess maps; with no active round no entry is appended and the fresh round
is still created. -/
theorem c8_newRound_closes_history (s : GState) (p : RoundPayload) :
    (∀ R, s.round = some R →
      (adminNewRound s p).1.history =
        s.history ++
          [{ question := R.question, imageUrl := R.imageUrl,
             winners := [], teamCircles := R.teamCircles,
             target := R.target, radius := R.radius }] ∧
      (adminNewRound s p).1.round = some (mkRound s.nextGen p) ∧
      (mkRound s.nextGen p).phase = Phase.countdown ∧
      (mkRound s.nextGen p).teamCircles = [] ∧
      (mkRound s.nextGen p).teamLocked = []) ∧
    (s.round = none →
      (adminNewRound s p).1.history = s.history ∧
      (adminNewRound s p).1.round = some (mkRound s.nextGen p)) := by
  constructor
  · intro R hR
    unfold adminNewRound
    rw [hR]
    exact ⟨rfl, rfl, rfl, rfl, rfl⟩
  · intro hR
    unfold adminNewRound
    rw [hR]
    exact ⟨rfl, rfl⟩

/-- Witness for C8: `admin:newRound` on `exGate` (active round `exRound`)
appends exactly the forced-close entry, and on `initState` (no round)
appends nothing. -/
theorem c8_newRound_closes_history_witness :
    (adminNewRound exGate
        { imageUrl := none, duration := none, radius := none,
          target := none, question := none }).1.history =
      exGate.history ++
        [{ question := exRound.question, imageUrl := exRound.imageUrl,
           winners := [], teamCircles := exRound.teamCircles,
           target := exRound.target, radius := exRound.radius }] ∧
    (adminNewRound initState
        { imageUrl := none, duration := none, radius := none,
          target := none, question := none }).1.history =
      initState.history :=
  ⟨((c8_newRound_closes_history exGate
      { imageUrl := none, duration := none, radius := none,
        target := none, question := none }).1 exRound rfl).1,
   ((c8_newRound_closes_history initState
      { imageUrl := none, duration := none, radius := none,
        target := none, question := none }).2 rfl).1⟩

/-! ### C1: a stale countdown timer and a replaced round -/

/-- Payload of the first round of the C1 trace: duration 3 seconds. -/
def c1Payload1 : RoundPayload :=
  { imageUrl := none, duration := some 3, radius := none, target := none,
    question := none }

/-- Payload of the replacing round of the C1 trace: duration 10 seconds. -/
def c1Payload2 : RoundPayload :=
  { imageUrl := none, duration := some 10, radius := none, target := none,
    question := none }

/-- State after `admin:startRound{duration:3}` on the initial state: round
generation 0, its interval's closure counter at 3. -/
def c1s1 : GState := (adminStartRound initState c1Payload1).1

/-- The interval created by that `admin:startRound` (for round 0). -/
def c1tk : Tick := (adminStartRound initState c1Payload1).2.2

/-- State after `admin:newRound{duration:10}` one second later: round
generation 1 in phase `countdown` with 10 seconds, while the round-0
interval is still live. -/
def c1s2 : GState := (adminNewRound c1s1 c1Payload2).1

/-- First firing of the stale round-0 interval after the replacement. -/
def c1f1 : GState × List Ev × Option Tick := timerFire c1s2 c1tk

/-- Second firing of the stale interval. -/
def c1f2 : GState × List Ev × Option Tick :=
  timerFire c1f1.1 (c1f1.2.2.getD c1tk)

/-- Third firing of the stale interval. -/
def c1f3 : GState × List Ev × Option Tick :=
  timerFire c1f2.1 (c1f2.2.2.getD c1tk)

/-- C1 is false of the code: the countdown callback checks only
`!state.round || state.round.phase !== 'countdown'`, never round identity,
so after `admin:newRound` replaces round 0 (duration 3) with round 1
(duration 10) the stale round-0 interval does not stop on its next tick —
it keeps emitting `round:tick` with its own counter (2, then 1, then 0)
while round 1 is current, and on its third firing sets `phase = 'dark'` on
round 1, a round other than the one it was started for, 7 seconds early. -/
theorem c1_stale_timer_mutates_new_round :
    c1tk.forGen = 0 ∧
    c1s2.round.map Round.gen = some 1 ∧
    c1s2.round.map Round.duration = some 10 ∧
    c1s2.round.map Round.phase = some Phase.countdown ∧
    c1f1.2.1 = [Ev.roundTick 2] ∧
    c1f1.2.2 = some { forGen := 0, t := 2 } ∧
    c1f2.2.1 = [Ev.roundTick 1] ∧
    c1f3.2.1 = [Ev.roundTick 0, Ev.roundDark] ∧
    c1f3.1.round.map Round.gen = some 1 ∧
    c1f3.1.round.map Round.phase = some Phase.dark :=
  ⟨rfl, rfl, rfl, rfl, rfl, rfl, rfl, rfl, rfl, rfl⟩

/-! ### C10: phase invariant over all reachable states -/

/-- Invariant: an active round's phase is `countdown` or `dark`. -/
def PhaseOK (s : GState) : Prop :=
  ∀ R : Round, s.round = some R →
    R.phase = Phase.countdown ∨ R.phase = Phase.dark

theorem phaseOK_of_map_eq {s s' : GState} (h : PhaseOK s)
    (he : s'.round.map Round.phase = s.round.map Round.phase) :
    PhaseOK s' := by
  intro R' hR'
  rw [hR'] at he
  cases hRs : s.round with
  | none => rw [hRs] at he; simp at he
  | some R =>
    rw [hRs] at he
    simp at he
    rw [he]
    exact h R hRs

theorem getOrCreateTeamByName_round (s : GState) (fid n : String) :
    (getOrCreateTeamByName s fid n).1.round = s.round := by
  unfold getOrCreateTeamByName
  cases hf : (s.teams.map Prod.snd).find? (fun t => jsLowerEq t.name n) with
  | some t => rfl
  | none =>
    by_cases hl : s.teams.length ≥ 4
    · rw [if_pos hl]
    · rw [if_neg hl]

theorem playerJoin_round (s : GState) (sid fid : String)
    (n tn : Option String) :
    (playerJoin s sid fid n tn).1.round = s.round := by
  unfold playerJoin
  cases n with
  | none => rfl
  | some nm =>
    cases tn with
    | none => rfl
    | some t =>
      dsimp only
      rcases hE : getOrCreateTeamByName s fid t.trim with ⟨s1, ot⟩
      have h1 : s1.round = s.round := by
        rw [← getOrCreateTeamByName_round s fid t.trim, hE]
      cases ot with
      | none => exact h1
      | some team =>
        dsimp only
        split
        · exact h1
        · exact h1

theorem setTurn_round (s : GState) (tid : Option String) :
    (setTurn s tid).1.round = s.round := by
  unfold setTurn
  cases tid with
  | none => rfl
  | some t =>
    dsimp only
    cases h : alGet s.teams t with
    | none => rfl
    | some tm => rfl

theorem nextTurn_round (s : GState) : (nextTurn s).1.round = s.round := by
  unfold nextTurn
  dsimp only
  split
  · rfl
  · cases s.turnTeamId <;> exact setTurn_round _ _

theorem prevTurn_round (s : GState) : (prevTurn s).1.round = s.round := by
  unfold prevTurn
  dsimp only
  split
  · rfl
  · cases s.turnTeamId <;> exact setTurn_round _ _

theorem teamSetCircle_phase (s : GState) (sid : String) (x y : Int)
    (nb : Bool) :
    (teamSetCircle s sid x y nb).1.round.map Round.phase =
      s.round.map Round.phase := by
  unfold teamSetCircle
  cases hp : alGet s.players sid with
  | none => rfl
  | some p =>
    cases hR : s.round with
    | none => rw [hR]
    | some R =>
      cases hg : notYourTurn s p with
      | true => simp [hg, hR]
      | false =>
        cases hl : (alGet R.teamLocked p.teamId).getD false with
        | true => simp [hg, hl, hR]
        | false => simp [hg, hl]

theorem teamConfirm_phase (s : GState) (sid : String) :
    (teamConfirm s sid).1.round.map Round.phase =
      s.round.map Round.phase := by
  unfold teamConfirm
  cases hp : alGet s.players sid with
  | none => rfl
  | some p =>
    cases hR : s.round with
    | none => rw [hR]
    | some R =>
      cases hg : notYourTurn s p with
      | true => simp [hg, hR]
      | false =>
        cases hc : alGet R.teamCircles p.teamId with
        | none => simp [hg, hc, hR]
        | some c =>
          cases hl : (alGet R.teamLocked p.teamId).getD false with
          | true => simp [hg, hc, hl, hR]
          | false =>
            cases hn : R.isNormalized with
            | true => simp [hg, hc, hl, hn]
            | false =>
              cases hh : isPixelHit (some c) (some R.target) R.radius with
              | false => simp [hg, hc, hl, hn, hh]
              | true =>
                cases ht : alGet s.teams p.teamId with
                | none => simp [hg, hc, hl, hn, hh, ht]
                | some tm => simp [hg, hc, hl, hn, hh, ht]

theorem teamUnconfirm_phase (s : GState) (sid : String) :
    (teamUnconfirm s sid).1.round.map Round.phase =
      s.round.map Round.phase := by
  unfold teamUnconfirm
  cases hp : alGet s.players sid with
  | none => rfl
  | some p =>
    cases hR : s.round with
    | none => rw [hR]
    | some R =>
      cases hg : notYourTurn s p with
      | true => simp [hg, hR]
      | false =>
        cases hl : (alGet R.teamLocked p.teamId).getD false with
        | true => simp [hg, hl]
        | false => simp [hg, hl, hR]

theorem adminRevealTeamCircles_phase (s : GState) :
    (adminRevealTeamCircles s).1.round.map Round.phase =
      s.round.map Round.phase := by
  unfold adminRevealTeamCircles
  cases hR : s.round with
  | none => rw [hR]
  | some R => rfl

theorem adminHideTeamCircles_phase (s : GState) :
    (adminHideTeamCircles s).1.round.map Round.phase =
      s.round.map Round.phase := by
  unfold adminHideTeamCircles
  cases hR : s.round with
  | none => rw [hR]
  | some R => rfl

theorem adminClearTeamCircles_phase (s : GState) :
    (adminClearTeamCircles s).1.round.map Round.phase =
      s.round.map Round.phase := by
  unfold adminClearTeamCircles
  cases hR : s.round with
  | none => rw [hR]
  | some R => rfl

theorem adminRevealArea_round (s : GState) (a : Bool) (d : Option Int) :
    (adminRevealArea s a d).1.round = s.round := by
  unfold adminRevealArea
  cases hR : s.round with
  | none => exact hR
  | some R => rfl

theorem adminShowFull_round (s : GState) :
    (adminShowFull s).1.round = s.round := by
  unfold adminShowFull
  cases hR : s.round with
  | none => exact hR
  | some R => exact hR

theorem adminAdjustPoints_round (s : GState) (tid : Option String)
    (d : Option Int) : (adminAdjustPoints s tid d).1.round = s.round := by
  unfold adminAdjustPoints
  cases tid with
  | none => rfl
  | some t =>
    dsimp only
    cases alGet s.teams t with
    | none => rfl
    | some tm => rfl

theorem disconnectPlayer_round (s : GState) (sid : String) :
    (disconnectPlayer s sid).1.round = s.round := by
  unfold disconnectPlayer
  cases alGet s.players sid with
  | none => rfl
  | some p => rfl

theorem phaseOK_of_round_eq {s s' : GState} (h : PhaseOK s)
    (he : s'.round = s.round) : PhaseOK s' :=
  phaseOK_of_map_eq h (by rw [he])

theorem phaseOK_timerFire (s : GState) (tk : Tick) (h : PhaseOK s) :
    PhaseOK (timerFire s tk).1 := by
  unfold timerFire
  cases hR : s.round with
  | none => exact h
  | some R =>
    dsimp only
    by_cases hph : R.phase ≠ Phase.countdown
    · rw [if_pos hph]
      exact h
    · rw [if_neg hph]
      by_cases ht : tk.t - 1 ≤ 0
      · rw [if_pos ht]
        intro R2 hR2
        rw [Option.some.injEq] at hR2
        rw [← hR2]
        right
        rfl
      · rw [if_neg ht]
        exact h

theorem phaseOK_step (s : GState) (c : Cmd) (h : PhaseOK s) :
    PhaseOK (step s c).1 := by
  cases c with
  | playerHello => exact h
  | adminHello => exact h
  | playerJoin sid fid n tn =>
    exact phaseOK_of_round_eq h (playerJoin_round s sid fid n tn)
  | teamSetCircle sid x y nb =>
    exact phaseOK_of_map_eq h (teamSetCircle_phase s sid x y nb)
  | teamConfirm sid => exact phaseOK_of_map_eq h (teamConfirm_phase s sid)
  | teamUnconfirm sid =>
    exact phaseOK_of_map_eq h (teamUnconfirm_phase s sid)
  | adminSetTurn tid => exact phaseOK_of_round_eq h (setTurn_round s tid)
  | adminNextTurn => exact phaseOK_of_round_eq h (nextTurn_round s)
  | adminPrevTurn => exact phaseOK_of_round_eq h (prevTurn_round s)
  | adminStartRound p =>
    intro R hR
    simp only [step, adminStartRound, Option.some.injEq] at hR
    rw [← hR]
    left
    rfl
  | adminRevealTeamCircles =>
    exact phaseOK_of_map_eq h (adminRevealTeamCircles_phase s)
  | adminHideTeamCircles =>
    exact phaseOK_of_map_eq h (adminHideTeamCircles_phase s)
  | adminClearTeamCircles =>
    exact phaseOK_of_map_eq h (adminClearTeamCircles_phase s)
  | adminRevealArea a d =>
    exact phaseOK_of_round_eq h (adminRevealArea_round s a d)
  | adminShowFull => exact phaseOK_of_round_eq h (adminShowFull_round s)
  | adminAdjustPoints tid d =>
    exact phaseOK_of_round_eq h (adminAdjustPoints_round s tid d)
  | adminNewRound p =>
    intro R hR
    simp only [step, adminNewRound] at hR
    split at hR <;>
      (simp only [Option.some.injEq] at hR; rw [← hR]; left; rfl)
  | disconnect sid =>
    exact phaseOK_of_round_eq h (disconnectPlayer_round s sid)
  | timer tk => exact phaseOK_timerFire s tk h

theorem phaseOK_runCmds (s : GState) (cmds : List Cmd) (h : PhaseOK s) :
    PhaseOK (runCmds s cmds) := by
  induction cmds generalizing s with
  | nil => exact h
  | cons c cs ih => exact ih (step s c).1 (phaseOK_step s c h)

/-- C10.  In every state reachable from the initial state, an active
round's phase is `countdown` or `dark` — phase `reveal` from the
documented data model is never assigned (the only assignments are
`countdown` at round creation and `dark` when the countdown reaches
zero) — and `admin:revealArea` leaves the round, in particular its phase,
unchanged while broadcasting the target and appending the history
entry. -/
theorem c10_phase_invariant :
    (∀ (cmds : List Cmd) (R : Round),
      (runCmds initState cmds).round = some R →
      R.phase ≠ Phase.reveal ∧
        (R.phase = Phase.countdown ∨ R.phase = Phase.dark)) ∧
    (∀ (s : GState) (a : Bool) (d : Option Int) (R : Round),
      s.round = some R →
      (adminRevealArea s a d).1.round = s.round ∧
      (adminRevealArea s a d).1.history =
        s.history ++ [revealEntry R (computeWinnersFromTeamCircles s)] ∧
      Ev.revealArea R.target R.radius R.isNormalized ∈
        (adminRevealArea s a d).2) := by
  constructor
  · intro cmds R hR
    have h0 : PhaseOK initState := by
      intro R' hR'
      simp [initState] at hR'
    have := phaseOK_runCmds initState cmds h0 R hR
    refine ⟨?_, this⟩
    rcases this with h | h <;> rw [h] <;> intro hc <;> cases hc
  · intro s a d R hR
    refine ⟨adminRevealArea_round s a d, ?_, ?_⟩
    · unfold adminRevealArea
      rw [hR]
    · unfold adminRevealArea
      rw [hR]
      simp

/-- Witness for C10: the run `[startRound, timer]` reaches a round in
phase `dark`, and `admin:revealArea` on `exGate` keeps `exRound`
unchanged. -/
theorem c10_phase_invariant_witness :
    ((runCmds initState
        [Cmd.adminStartRound c1Payload1,
         Cmd.timer { forGen := 0, t := 1 }]).round.map Round.phase =
      some Phase.dark) ∧
    ((mkRound 0 c1Payload1).phase ≠ Phase.reveal ∧
      ((mkRound 0 c1Payload1).phase = Phase.countdown ∨
        (mkRound 0 c1Payload1).phase = Phase.dark)) ∧
    (adminRevealArea exGate false none).1.round = exGate.round :=
  ⟨rfl,
   (c10_phase_invariant.1 [Cmd.adminStartRound c1Payload1]
     (mkRound 0 c1Payload1) rfl),
   (c10_phase_invariant.2 exGate false none exRound rfl).1⟩

/-! ### C9: turn rotation -/

/-- Well-formedness of the team table (true by construction in the server:
`state.teams[id]` always holds the team whose `id` field is `id`). -/
def TeamsWF (s : GState) : Prop := ∀ kv ∈ s.teams, kv.1 = kv.2.id

theorem idxOf?_getElem (l : List String) (j : Nat) (hj : j < l.length)
    (hnd : l.Nodup) : idxOf? l l[j] = some j := by
  induction l generalizing j with
  | nil => cases hj
  | cons a t ih =>
    cases j with
    | zero => simp [idxOf?]
    | succ j' =>
      have hj' : j' < t.length := by
        simpa using hj
      have hmem : t[j'] ∈ t := List.getElem_mem hj'
      have hna : ¬ a = t[j'] := by
        intro h
        exact (List.nodup_cons.mp hnd).1 (h ▸ hmem)
      simp [idxOf?, List.getElem_cons_succ, hna,
        ih j' hj' (List.nodup_cons.mp hnd).2]

theorem mem_insertLe {α : Type} (le : α → α → Bool) (x : α) (l : List α)
    (y : α) : y ∈ insertLe le x l ↔ y = x ∨ y ∈ l := by
  induction l with
  | nil => simp [insertLe]
  | cons a t ih =>
    by_cases h : le x a = true
    · simp [insertLe, h]
    · simp [insertLe, h, ih]
      tauto

theorem mem_sortBy {α : Type} (le : α → α → Bool) (l : List α) (y : α) :
    y ∈ sortBy le l ↔ y ∈ l := by
  induction l with
  | nil => simp [sortBy]
  | cons a t ih => simp [sortBy, mem_insertLe, ih]

theorem alGet_isSome_of_key_mem {α : Type} (l : List (String × α))
    (k : String) (h : ∃ kv ∈ l, kv.1 = k) : ∃ v, alGet l k = some v := by
  induction l with
  | nil => simp at h
  | cons a t ih =>
    by_cases ha : a.1 = k
    · exact ⟨a.2, by simp [alGet, ha]⟩
    · have h' : ∃ kv ∈ t, kv.1 = k := by
        obtain ⟨kv, hkv, hk⟩ := h
        cases hkv with
        | head => exact absurd hk ha
        | tail _ hmem => exact ⟨kv, hmem, hk⟩
      obtain ⟨v, hv⟩ := ih h'
      exact ⟨v, by simp [alGet, ha, hv]⟩

theorem sortedTeamIds_lookup (s : GState) (hwf : TeamsWF s) (tid : String)
    (h : tid ∈ sortedTeamIds s) : ∃ tm, alGet s.teams tid = some tm := by
  unfold sortedTeamIds at h
  rw [List.mem_map] at h
  obtain ⟨team, hmem, hid⟩ := h
  rw [mem_sortBy, List.mem_map] at hmem
  obtain ⟨kv, hkv, hsnd⟩ := hmem
  exact alGet_isSome_of_key_mem s.teams tid
    ⟨kv, hkv, by rw [hwf kv hkv, hsnd, hid]⟩

theorem setTurn_of_mem (s : GState) (hwf : TeamsWF s) (tid : String)
    (h : tid ∈ sortedTeamIds s) :
    setTurn s (some tid) =
      ({ s with turnTeamId := some tid },
       [Ev.turnUpdate tid, Ev.statePush]) := by
  obtain ⟨tm, htm⟩ := sortedTeamIds_lookup s hwf tid h
  unfold setTurn
  dsimp only
  rw [htm]

theorem nextTurn_of_idx (s : GState) (hwf : TeamsWF s)
    (hnd : (sortedTeamIds s).Nodup) (j : Nat)
    (hj : j < (sortedTeamIds s).length)
    (ht : s.turnTeamId = some ((sortedTeamIds s)[j])) :
    (nextTurn s).1 =
      { s with
        turnTeamId :=
          (sortedTeamIds s)[(j + 1) % (sortedTeamIds s).length]? } := by
  have hpos : 0 < (sortedTeamIds s).length :=
    Nat.lt_of_le_of_lt (Nat.zero_le j) hj
  have hlt : (j + 1) % (sortedTeamIds s).length < (sortedTeamIds s).length :=
    Nat.mod_lt _ hpos
  have hne : (sortedTeamIds s).isEmpty = false := by
    cases hl : sortedTeamIds s with
    | nil => rw [hl] at hpos; simp at hpos
    | cons a t => rfl
  have hidx : jsIndexOf (sortedTeamIds s) ((sortedTeamIds s)[j]) =
      (j : Int) := by
    unfold jsIndexOf
    rw [idxOf?_getElem _ j hj hnd]
  have hmod : (((j : Int) + 1).tmod
        ((sortedTeamIds s).length : Int)).toNat =
      (j + 1) % (sortedTeamIds s).length := rfl
  have harr : (sortedTeamIds s)[(j + 1) % (sortedTeamIds s).length]? =
      some ((sortedTeamIds s)[(j + 1) % (sortedTeamIds s).length]) :=
    List.getElem?_eq_getElem hlt
  unfold nextTurn
  dsimp only
  rw [hne]
  simp only [Bool.false_eq_true, if_false]
  rw [ht]
  dsimp only
  rw [hidx, hmod, harr]
  rw [setTurn_of_mem s hwf _ (List.getElem_mem hlt)]

theorem nextTurn_iterate (s : GState) (hwf : TeamsWF s)
    (hnd : (sortedTeamIds s).Nodup) (j : Nat)
    (hj : j < (sortedTeamIds s).length)
    (ht : s.turnTeamId = some ((sortedTeamIds s)[j])) (k : Nat) :
    ((fun st => (nextTurn st).1)^[k] s) =
      { s with
        turnTeamId :=
          (sortedTeamIds s)[(j + k) % (sortedTeamIds s).length]? } := by
  have hpos : 0 < (sortedTeamIds s).length :=
    Nat.lt_of_le_of_lt (Nat.zero_le j) hj
  induction k with
  | zero =>
    rw [Function.iterate_zero_apply]
    have h0 : (j + 0) % (sortedTeamIds s).length = j := by
      rw [Nat.add_zero]
      exact Nat.mod_eq_of_lt hj
    rw [h0, List.getElem?_eq_getElem hj, ← ht]
  | succ k ih =>
    rw [Function.iterate_succ_apply', ih]
    have hmem : (j + k) % (sortedTeamIds s).length <
        (sortedTeamIds s).length := Nat.mod_lt _ hpos
    have ht' : ({ s with
        turnTeamId :=
          (sortedTeamIds s)[(j + k) % (sortedTeamIds s).length]?
        } : GState).turnTeamId =
        some ((sortedTeamIds s)[(j + k) % (sortedTeamIds s).length]) := by
      dsimp only
      exact List.getElem?_eq_getElem hmem
    have hstep := nextTurn_of_idx
      { s with
        turnTeamId :=
          (sortedTeamIds s)[(j + k) % (sortedTeamIds s).length]? }
      hwf hnd ((j + k) % (sortedTeamIds s).length) hmem ht'
    rw [hstep]
    have hids : sortedTeamIds
        { s with
          turnTeamId :=
            (sortedTeamIds s)[(j + k) % (sortedTeamIds s).length]? } =
        sortedTeamIds s := rfl
    have harith : ((j + k) % (sortedTeamIds s).length + 1) %
        (sortedTeamIds s).length =
        (j + (k + 1)) % (sortedTeamIds s).length := by
      rw [Nat.mod_add_mod, Nat.add_assoc]
    rw [hids]
    dsimp only
    rw [harith]

/-- C9.  Turn rotation cycles over the sorted team-id list: with a current
turn team set that is in the list, `nextTurn` composed (team count) times
returns the turn to the starting team; with no current turn set, both
`nextTurn` and `prevTurn` set the turn to the first team of the ordered
list; and `setTurn` with an unknown team id is a no-op (no state change,
no events).  The order is the case-sensitive lexicographic order on team
names (the model of `localeCompare` used by `sortedTeamIds`). -/
theorem c9_turn_rotation (s : GState) (hwf : TeamsWF s)
    (hnd : (sortedTeamIds s).Nodup) :
    (∀ t, s.turnTeamId = some t → t ∈ sortedTeamIds s →
      ((fun st => (nextTurn st).1)^[(sortedTeamIds s).length] s).turnTeamId
        = some t) ∧
    (s.turnTeamId = none → 0 < (sortedTeamIds s).length →
      (nextTurn s).1.turnTeamId = (sortedTeamIds s)[0]? ∧
      (prevTurn s).1.turnTeamId = (sortedTeamIds s)[0]?) ∧
    (∀ tid, alGet s.teams tid = none → setTurn s (some tid) = (s, [])) := by
  refine ⟨?_, ?_, ?_⟩
  · intro t ht hmem
    obtain ⟨j, hj, hjt⟩ := List.mem_iff_getElem.mp hmem
    rw [← hjt] at ht
    rw [nextTurn_iterate s hwf hnd j hj ht (sortedTeamIds s).length]
    dsimp only
    have : (j + (sortedTeamIds s).length) % (sortedTeamIds s).length = j := by
      rw [Nat.add_mod_right]
      exact Nat.mod_eq_of_lt hj
    rw [this, List.getElem?_eq_getElem hj, hjt]
  · intro htn hpos
    have hne : (sortedTeamIds s).isEmpty = false := by
      cases hl : sortedTeamIds s with
      | nil => rw [hl] at hpos; simp at hpos
      | cons a t => rfl
    have h0 : (sortedTeamIds s)[0]? = some ((sortedTeamIds s)[0]) :=
      List.getElem?_eq_getElem hpos
    have hset := setTurn_of_mem s hwf ((sortedTeamIds s)[0])
      (List.getElem_mem hpos)
    constructor
    · unfold nextTurn
      dsimp only
      rw [hne]
      simp only [Bool.false_eq_true, if_false]
      rw [htn]
      dsimp only
      rw [h0, hset]
    · unfold prevTurn
      dsimp only
      rw [hne]
      simp only [Bool.false_eq_true, if_false]
      rw [htn]
      dsimp only
      rw [h0, hset]
  · intro tid h
    unfold setTurn
    dsimp only
    rw [h]

/-- Witness for C9 at the two-team fixtures: cycling twice from `tB`
returns to `tB`; from no turn both rotations pick the first sorted team;
`setTurn` with the unknown id `zz` is a no-op. -/
theorem c9_turn_rotation_witness :
    ((fun st => (nextTurn st).1)^[(sortedTeamIds exGate).length]
        exGate).turnTeamId = some "tB" ∧
    (nextTurn exNoTurn).1.turnTeamId = (sortedTeamIds exNoTurn)[0]? ∧
    setTurn exGate (some "zz") = (exGate, []) := by
  have hwfG : TeamsWF exGate := by
    unfold TeamsWF
    decide
  have hwfN : TeamsWF exNoTurn := by
    unfold TeamsWF
    decide
  have hndG : (sortedTeamIds exGate).Nodup := by decide
  have hndN : (sortedTeamIds exNoTurn).Nodup := by decide
  refine ⟨?_, ?_, ?_⟩
  · exact (c9_turn_rotation exGate hwfG hndG).1 "tB" rfl (by decide)
  · exact ((c9_turn_rotation exNoTurn hwfN hndN).2.1 rfl (by decide)).1
  · exact (c9_turn_rotation exGate hwfG hndG).2.2 "zz" rfl

end BilderQuiz
